import Mathlib

/-!
Verification of the leave-accrual calculation engine of the KUHCalendar
attendance application (`attendance/views.py` and `attendance/models.py`).

The Python `datetime.date` values are embedded as triples of integers with
lexicographic comparison; the standard-library date operations the code uses
(`replace`, `- timedelta(days=1)`, `+ timedelta(days=1)`, `toordinal`,
`weekday`, subtraction of dates) are embedded by their documented Gregorian
semantics.  Python floats in the accrual formulas are modelled with exact
rationals; the magnitudes involved (at most a few thousand) are far from any
double-precision rounding boundary.
-/

namespace KUHCalendar

/-- Embedding of `datetime.date`: a year, month and day, each a Python int.
Validity (month in 1..12, day in range for the month) is a separate
predicate `Date.Valid`, mirroring the fact that the constructor validates. -/
structure Date where
  year : Int
  month : Int
  day : Int
deriving DecidableEq

/-- Strict comparison of dates, as Python compares `date` values:
lexicographic on (year, month, day). -/
def Date.lt (a b : Date) : Prop :=
  a.year < b.year ∨ (a.year = b.year ∧ (a.month < b.month ∨ (a.month = b.month ∧ a.day < b.day)))

/-- Non-strict comparison of dates, lexicographic on (year, month, day). -/
def Date.le (a b : Date) : Prop :=
  a.year < b.year ∨ (a.year = b.year ∧ (a.month < b.month ∨ (a.month = b.month ∧ a.day ≤ b.day)))

instance (a b : Date) : Decidable (Date.lt a b) := by
  unfold Date.lt; exact inferInstance

instance (a b : Date) : Decidable (Date.le a b) := by
  unfold Date.le; exact inferInstance

/-- Gregorian leap-year test, as in Python's `datetime` module:
`year % 4 == 0 and (year % 100 != 0 or year % 400 == 0)`. -/
def isLeap (y : Int) : Bool :=
  y % 4 == 0 && (y % 100 != 0 || y % 400 == 0)

/-- Number of days in a month of a given year, as known to Python's
`datetime` library (month assumed in 1..12). -/
def daysInMonth (y m : Int) : Int :=
  if m = 2 then (if isLeap y then 29 else 28)
  else if m = 4 ∨ m = 6 ∨ m = 9 ∨ m = 11 then 30
  else 31

/-- Validity of a date value: what Python's `date` constructor accepts
(we leave the 1..9999 year range to `replaceYear`, where it matters). -/
def Date.Valid (d : Date) : Prop :=
  1 ≤ d.month ∧ d.month ≤ 12 ∧ 1 ≤ d.day ∧ d.day ≤ daysInMonth d.year d.month

instance (d : Date) : Decidable (Date.Valid d) := by
  unfold Date.Valid; exact inferInstance

/-- Embedding of `d - timedelta(days=1)` for a valid date `d`. -/
def Date.pred (d : Date) : Date :=
  if 1 < d.day then ⟨d.year, d.month, d.day - 1⟩
  else if 1 < d.month then ⟨d.year, d.month - 1, daysInMonth d.year (d.month - 1)⟩
  else ⟨d.year - 1, 12, 31⟩

/-- Embedding of `d + timedelta(days=1)` for a valid date `d`. -/
def Date.succ (d : Date) : Date :=
  if d.day < daysInMonth d.year d.month then ⟨d.year, d.month, d.day + 1⟩
  else if d.month < 12 then ⟨d.year, d.month + 1, 1⟩
  else ⟨d.year + 1, 1, 1⟩

/-- Embedding of `d.replace(year=y)`.  Python's `replace` re-runs the `date`
constructor, which raises `ValueError` when the resulting triple is not a
valid date (day out of range for the month, or year outside 1..9999); the
failure is modelled as `none`. -/
def replaceYear (d : Date) (y : Int) : Option Date :=
  if 1 ≤ y ∧ y ≤ 9999 ∧ 1 ≤ d.month ∧ d.month ≤ 12 ∧ 1 ≤ d.day ∧ d.day ≤ daysInMonth y d.month
  then some ⟨y, d.month, d.day⟩ else none

/-- Embedding of Python's builtin `min` on two dates:
`min(a, b)` returns `b` when `b < a`, else `a`. -/
def dateMin (a b : Date) : Date :=
  if Date.lt b a then b else a

/-- Number of leap years among the years `1 .. y-1` (for `y ≥ 1`),
as used by `date.toordinal`. -/
def leapsBefore (y : Int) : Int :=
  (y - 1) / 4 - (y - 1) / 100 + (y - 1) / 400

/-- Days of year `y` strictly before month `m` (month in 1..12). -/
def daysBeforeMonth (y m : Int) : Int :=
  (if 1 < m then daysInMonth y 1 else 0) + (if 2 < m then daysInMonth y 2 else 0) +
  (if 3 < m then daysInMonth y 3 else 0) + (if 4 < m then daysInMonth y 4 else 0) +
  (if 5 < m then daysInMonth y 5 else 0) + (if 6 < m then daysInMonth y 6 else 0) +
  (if 7 < m then daysInMonth y 7 else 0) + (if 8 < m then daysInMonth y 8 else 0) +
  (if 9 < m then daysInMonth y 9 else 0) + (if 10 < m then daysInMonth y 10 else 0) +
  (if 11 < m then daysInMonth y 11 else 0)

/-- Embedding of `date.toordinal()`: day count with `date(1,1,1)` as day 1.
Date arithmetic (`-`, `+ timedelta`) and `weekday()` in Python are defined
through this ordinal. -/
def Date.toOrdinal (d : Date) : Int :=
  365 * (d.year - 1) + leapsBefore d.year + daysBeforeMonth d.year d.month + d.day

/-- Embedding of `(a - b).days` for two dates. -/
def dateSub (a b : Date) : Int :=
  a.toOrdinal - b.toOrdinal

/-- Embedding of `_round_half_up` (`attendance/views.py` line 48):
`math.floor(value + 0.5)`, on exact rationals. -/
def round_half_up (value : ℚ) : Int :=
  Int.floor (value + 1/2)

/-- Embedding of `_last_day_of_month` (`attendance/views.py` line 52):
returns 31 for December, else the day of `date(y, m+1, 1) - timedelta(days=1)`. -/
def last_day_of_month (y m : Int) : Int :=
  if m = 12 then 31 else (Date.pred ⟨y, m + 1, 1⟩).day

/-- Embedding of `_completed_months` (`attendance/views.py` line 65):
full months completed between `start_date` and `limit_date`. -/
def completed_months (start_date limit_date : Date) : Int :=
  if Date.lt limit_date start_date then 0
  else
    let months := (limit_date.year - start_date.year) * 12 + (limit_date.month - start_date.month)
    let months2 := if limit_date.day < start_date.day then months - 1 else months
    max months2 0

/-- The segment dictionaries produced by `_current_leave_segment`, one
constructor per `type` value, carrying exactly the keys the code stores. -/
inductive Segment where
  | year1_monthly (start end_ : Date) (start_month : Int)
  | year2_partial_monthly (start end_ : Date) (start_month : Int)
  | year3_prorated_calendar (start end_ : Date) (round_hu : Bool)
  | annual (start end_ : Date) (annual_days : Int) (round_hu : Bool)
deriving DecidableEq

/-- The `'start'` entry of a segment dictionary. -/
def Segment.start : Segment → Date
  | .year1_monthly s _ _ => s
  | .year2_partial_monthly s _ _ => s
  | .year3_prorated_calendar s _ _ => s
  | .annual s _ _ _ => s

/-- The `'end'` entry of a segment dictionary. -/
def Segment.end_ : Segment → Date
  | .year1_monthly _ e _ => e
  | .year2_partial_monthly _ e _ => e
  | .year3_prorated_calendar _ e _ => e
  | .annual _ e _ _ => e

/-- Embedding of `_current_leave_segment` (`attendance/views.py` line 101).
`Except.error ()` models the `ValueError` that `join_date.replace(year=...)`
raises when the anniversary triple is not a valid date (leap-day hires). -/
def current_leave_segment (join_date : Option Date) (today : Date) :
    Except Unit (Option Segment) :=
  match join_date with
  | none => .ok none
  | some jd =>
    if Date.lt today jd then .ok none
    else
      match replaceYear jd (jd.year + 1) with
      | none => .error ()
      | some fa0 =>
        let first_anniv : Date :=
          ⟨fa0.year, fa0.month, min fa0.day (last_day_of_month fa0.year fa0.month)⟩
        let first_year_end := Date.pred first_anniv
        if Date.le today first_year_end then
          .ok (some (.year1_monthly jd first_year_end jd.month))
        else if today.year = first_anniv.year then
          .ok (some (.year2_partial_monthly first_anniv ⟨first_anniv.year, 12, 31⟩
                first_anniv.month))
        else if today.year = first_anniv.year + 1 then
          .ok (some (.year3_prorated_calendar ⟨today.year, 1, 1⟩ ⟨today.year, 12, 31⟩ true))
        else
          .ok (some (.annual ⟨today.year, 1, 1⟩ ⟨today.year, 12, 31⟩
                (15 + ((today.year - jd.year) + 1 - 3)) false))

/-- Embedding of `_calculate_earned_leave` (`attendance/views.py` line 149).
The `segment or _current_leave_segment(...)` recomputation (and hence the
possible `ValueError`) is modelled by the inner match. -/
def calculate_earned_leave (join_date : Option Date) (today : Date)
    (segment : Option Segment) : Except Unit Int :=
  match join_date with
  | none => .ok 0
  | some jd =>
    if Date.lt today jd then .ok 0
    else
      match (match segment with
             | some s => Except.ok (some s)
             | none => current_leave_segment join_date today) with
      | .error e => .error e
      | .ok none => .ok 0
      | .ok (some seg) =>
        match seg with
        | .year1_monthly s e _ => .ok (completed_months s (dateMin today e))
        | .year2_partial_monthly s e _ => .ok (completed_months s (dateMin today e))
        | .year3_prorated_calendar s _ rhu =>
          let days_employed : Int := dateSub today s + 1
          let accrued : ℚ := ((days_employed : ℚ) / 365) * 15
          .ok (if rhu then round_half_up accrued else Int.floor accrued)
        | .annual s _ n _ =>
          if Date.lt today s then .ok 0 else .ok n

/-- One row of the `LeaveRequest` table (`attendance/models.py` line 26),
restricted to the fields the accrual core reads and writes.  `days` is the
nullable float column, modelled with rationals. -/
structure LeaveRequestRec where
  leave_type : String
  status : String
  start_date : Option Date
  end_date : Option Date
  days : Option ℚ
deriving DecidableEq

/-- The weekday-counting loop of `LeaveRequest.save`
(`attendance/models.py` lines 45-51), iterating day by day from the start
ordinal to the end ordinal.  Python's `weekday()` is
`(toordinal + 6) % 7` (Monday = 0), and the loop counts days with
`weekday() < 5`. -/
def countWorkdays (s e : Int) : Int :=
  if h : e < s then 0
  else countWorkdays (s + 1) e + (if (s + 6) % 7 < 5 then 1 else 0)
termination_by (e + 1 - s).toNat
decreasing_by simp at h; omega

/-- Embedding of `LeaveRequest.save` (`attendance/models.py` line 39),
restricted to its effect on the record: when both dates are set it
overwrites `days` with 0.5 for the half-day kind and with the weekday count
otherwise; other fields and the missing-date case are untouched. -/
def leaveRequestSave (r : LeaveRequestRec) : LeaveRequestRec :=
  match r.start_date, r.end_date with
  | some s, some e =>
    if r.leave_type = "반차" then { r with days := some (1/2) }
    else { r with days := some ((countWorkdays s.toOrdinal e.toOrdinal : Int) : ℚ) }
  | _, _ => r

/-- Embedding of `_calculate_used_leave` (`attendance/views.py` line 177).
The request store is modelled as the list of the user's `LeaveRequest`
rows; the Django query keeps approved requests whose `start_date` lies in
the segment window and whose `days` is not null, and sums `days`. -/
def calculate_used_leave (reqs : List LeaveRequestRec) (segment : Option Segment) : ℚ :=
  match segment with
  | none => 0
  | some seg =>
    (reqs.filter (fun r =>
        r.status == "approved" &&
        (match r.start_date with
         | some sd => decide (Date.le seg.start sd) && decide (Date.le sd seg.end_)
         | none => false) &&
        r.days.isSome)).foldl (fun acc r => acc + r.days.getD 0) 0

/-- The dictionary returned by `_leave_summary_for_user`. -/
structure LeaveSummary where
  earned : Int
  used : ℚ
  remaining : ℚ
  missing_join_date : Bool
  join_date : Option Date
  usage_rate : ℚ
  reset_date : Option Date
deriving DecidableEq

/-- Embedding of `_leave_summary_for_user` (`attendance/views.py` line 190),
with the user's hire date, stored requests and the reference date
(`timezone.localdate()`) made explicit.  The `ValueError` that
`_current_leave_segment` may raise propagates as `Except.error`. -/
def leave_summary_for_user (join_dt : Option Date) (reqs : List LeaveRequestRec)
    (today : Date) : Except Unit LeaveSummary :=
  match current_leave_segment join_dt today with
  | .error e => .error e
  | .ok segment =>
    match (if segment.isSome then calculate_earned_leave join_dt today segment
           else Except.ok 0) with
    | .error e => .error e
    | .ok earned =>
      let used := calculate_used_leave reqs segment
      let remaining : ℚ := (earned : ℚ) - used
      let usage_rate : ℚ := if 0 < earned then used / (earned : ℚ) * 100 else 0
      let reset_date := segment.map Segment.end_
      .ok ⟨earned, used, remaining, join_dt.isNone, join_dt, usage_rate, reset_date⟩

/-- A concrete summary value: the facade's output for an employee hired
2023-01-15 with no stored requests, seen on 2023-02-15 (one completed
month earned, nothing used). -/
def sampleSummary : LeaveSummary :=
  ⟨1, 0, 1, false, some ⟨2023, 1, 15⟩, 0, some ⟨2024, 1, 14⟩⟩

theorem Date.not_lt_iff_le {a b : Date} : ¬ Date.lt a b ↔ Date.le b a := by
  unfold Date.lt Date.le; omega

theorem Date.not_le_iff_lt {a b : Date} : ¬ Date.le a b ↔ Date.lt b a := by
  unfold Date.lt Date.le; omega

theorem Date.le_trans {a b c : Date} (h1 : Date.le a b) (h2 : Date.le b c) :
    Date.le a c := by
  unfold Date.le at *; omega

theorem daysInMonth_bounds (y m : Int) : 28 ≤ daysInMonth y m ∧ daysInMonth y m ≤ 31 := by
  unfold daysInMonth
  split
  · split <;> omega
  · split <;> omega

theorem daysInMonth_twelve (y : Int) : daysInMonth y 12 = 31 := by
  unfold daysInMonth; norm_num

theorem last_day_of_month_eq {y m : Int} (h1 : 1 ≤ m) (h2 : m ≤ 12) :
    last_day_of_month y m = daysInMonth y m := by
  unfold last_day_of_month
  split
  · rename_i h12; rw [h12]; exact (daysInMonth_twelve y).symm
  · unfold Date.pred
    dsimp only
    rw [if_neg (by omega : ¬ (1 : Int) < 1), if_pos (by omega : (1 : Int) < m + 1)]
    dsimp only
    norm_num

theorem Date.le_succ_self (d : Date) : Date.le d (Date.succ d) := by
  unfold Date.succ
  split
  · show Date.le d ⟨d.year, d.month, d.day + 1⟩
    unfold Date.le; dsimp only; omega
  · split
    · show Date.le d ⟨d.year, d.month + 1, 1⟩
      unfold Date.le; dsimp only; omega
    · show Date.le d ⟨d.year + 1, 1, 1⟩
      unfold Date.le; dsimp only; omega

theorem replaceYear_some {d : Date} {y : Int} {fa : Date}
    (h : replaceYear d y = some fa) :
    fa = ⟨y, d.month, d.day⟩ ∧ 1 ≤ d.month ∧ d.month ≤ 12 ∧ 1 ≤ d.day ∧
      d.day ≤ daysInMonth y d.month := by
  unfold replaceYear at h
  split at h
  · rename_i hc
    exact ⟨(Option.some.inj h).symm, hc.2.2.1, hc.2.2.2.1, hc.2.2.2.2.1, hc.2.2.2.2.2⟩
  · exact absurd h (by simp)

theorem resolver_inv {jd today : Date} {seg : Segment}
    (h : current_leave_segment (some jd) today = .ok (some seg)) :
    ¬ Date.lt today jd ∧
    ∃ fa : Date, replaceYear jd (jd.year + 1) = some fa ∧
      fa = ⟨jd.year + 1, jd.month, jd.day⟩ ∧
      ((Date.le today (Date.pred fa) ∧ seg = .year1_monthly jd (Date.pred fa) jd.month) ∨
       (¬ Date.le today (Date.pred fa) ∧ today.year = fa.year ∧
          seg = .year2_partial_monthly fa ⟨fa.year, 12, 31⟩ fa.month) ∨
       (¬ Date.le today (Date.pred fa) ∧ today.year ≠ fa.year ∧ today.year = fa.year + 1 ∧
          seg = .year3_prorated_calendar ⟨today.year, 1, 1⟩ ⟨today.year, 12, 31⟩ true) ∨
       (¬ Date.le today (Date.pred fa) ∧ today.year ≠ fa.year ∧ today.year ≠ fa.year + 1 ∧
          seg = .annual ⟨today.year, 1, 1⟩ ⟨today.year, 12, 31⟩
            (15 + ((today.year - jd.year) + 1 - 3)) false)) := by
  unfold current_leave_segment at h
  dsimp only at h
  split at h
  · exact absurd h (by simp)
  · rename_i hlt
    refine ⟨hlt, ?_⟩
    cases hr : replaceYear jd (jd.year + 1) with
    | none => rw [hr] at h; exact absurd h (by simp)
    | some fa0 =>
      rw [hr] at h
      dsimp only at h
      obtain ⟨hfa, hm1, hm2, hd1, hd2⟩ := replaceYear_some hr
      have hclamp : (⟨fa0.year, fa0.month,
          min fa0.day (last_day_of_month fa0.year fa0.month)⟩ : Date) = fa0 := by
        subst hfa
        simp only
        rw [last_day_of_month_eq hm1 hm2, min_eq_left hd2]
      rw [hclamp] at h
      refine ⟨fa0, rfl, hfa, ?_⟩
      split at h
      · rename_i hy1
        left
        exact ⟨hy1, (Option.some.inj (Except.ok.inj h)).symm⟩
      · rename_i hy1
        split at h
        · rename_i hy2
          exact Or.inr (Or.inl ⟨hy1, hy2, (Option.some.inj (Except.ok.inj h)).symm⟩)
        · rename_i hy2
          split at h
          · rename_i hy3
            exact Or.inr (Or.inr (Or.inl
              ⟨hy1, hy2, hy3, (Option.some.inj (Except.ok.inj h)).symm⟩))
          · rename_i hy3
            exact Or.inr (Or.inr (Or.inr
              ⟨hy1, hy2, hy3, (Option.some.inj (Except.ok.inj h)).symm⟩))

theorem dateMin_eq_left {a b : Date} (h : Date.le a b) : dateMin a b = a := by
  unfold dateMin
  rw [if_neg (Date.not_lt_iff_le.mpr h)]

theorem Date.Valid.day_le_31 {d : Date} (h : d.Valid) : d.day ≤ 31 := by
  have h1 := h.2.2.2
  have h2 := (daysInMonth_bounds d.year d.month).2
  omega

theorem earned_year1 {jd today s e : Date} {m : Int} (hlt : ¬ Date.lt today jd) :
    calculate_earned_leave (some jd) today (some (.year1_monthly s e m)) =
      .ok (completed_months s (dateMin today e)) := by
  unfold calculate_earned_leave
  dsimp only
  rw [if_neg hlt]

theorem earned_year2 {jd today s e : Date} {m : Int} (hlt : ¬ Date.lt today jd) :
    calculate_earned_leave (some jd) today (some (.year2_partial_monthly s e m)) =
      .ok (completed_months s (dateMin today e)) := by
  unfold calculate_earned_leave
  dsimp only
  rw [if_neg hlt]

theorem earned_year3 {jd today s e : Date} {rhu : Bool} (hlt : ¬ Date.lt today jd) :
    calculate_earned_leave (some jd) today (some (.year3_prorated_calendar s e rhu)) =
      .ok (if rhu then round_half_up (((dateSub today s + 1 : Int) : ℚ) / 365 * 15)
           else Int.floor (((dateSub today s + 1 : Int) : ℚ) / 365 * 15)) := by
  unfold calculate_earned_leave
  dsimp only
  rw [if_neg hlt]

theorem earned_annual {jd today s e : Date} {n : Int} (hlt : ¬ Date.lt today jd) :
    calculate_earned_leave (some jd) today (some (.annual s e n false)) =
      (if Date.lt today s then .ok 0 else .ok n) := by
  unfold calculate_earned_leave
  dsimp only
  rw [if_neg hlt]

theorem completed_months_year1_le {jd today : Date}
    (hv : today.Valid) (hm1 : 1 ≤ jd.month) (hm2 : jd.month ≤ 12) (hd1 : 1 ≤ jd.day)
    (hle : Date.le today (Date.pred ⟨jd.year + 1, jd.month, jd.day⟩)) :
    completed_months jd today ≤ 11 := by
  obtain ⟨hv1, hv2, hv3, hv4⟩ := hv
  unfold Date.pred at hle
  dsimp only at hle
  unfold completed_months
  split
  · omega
  · rename_i hlim
    dsimp only
    rw [max_le_iff]
    refine ⟨?_, by omega⟩
    unfold Date.lt at hlim
    split at hle <;> [skip; split at hle] <;>
      (unfold Date.le at hle; dsimp only at hle; split <;> omega)

theorem completed_months_year2_le {fa today : Date} (hv : today.Valid)
    (hm1 : 1 ≤ fa.month) (hy : today.year = fa.year) :
    completed_months fa today ≤ 11 := by
  have h12 : today.month ≤ 12 := hv.2.1
  unfold completed_months
  split
  · omega
  · dsimp only
    rw [max_le_iff]
    refine ⟨?_, by omega⟩
    split <;> omega

theorem completed_months_year2_full {fa : Date} (hm1 : 1 ≤ fa.month) (hm2 : fa.month ≤ 12)
    (hd1 : 1 ≤ fa.day) (hd31 : fa.day ≤ 31) :
    completed_months fa ⟨fa.year, 12, 31⟩ = 12 - fa.month := by
  unfold completed_months
  rw [if_neg (by unfold Date.lt; dsimp only; omega)]
  dsimp only
  rw [if_neg (by omega : ¬ (31 : Int) < fa.day)]
  rw [max_eq_left (by omega)]
  ring

theorem anniv_le_of_not_le_pred {fa today : Date} (hv : today.Valid)
    (hm1 : 1 ≤ fa.month) (hm2 : fa.month ≤ 12) (hd1 : 1 ≤ fa.day)
    (hd2 : fa.day ≤ daysInMonth fa.year fa.month)
    (h : ¬ Date.le today (Date.pred fa)) : Date.le fa today := by
  obtain ⟨hv1, hv2, hv3, hv4⟩ := hv
  unfold Date.pred at h
  split at h
  · unfold Date.le at h ⊢
    dsimp only at h
    omega
  · split at h
    · have hb : today.year = fa.year → today.month = fa.month - 1 →
          daysInMonth today.year today.month = daysInMonth fa.year (fa.month - 1) := by
        intro e1 e2; rw [e1, e2]
      unfold Date.le at h ⊢
      dsimp only at h
      omega
    · have hb : today.month = 12 → daysInMonth today.year today.month = 31 := by
        intro e; rw [e, daysInMonth_twelve]
      unfold Date.le at h ⊢
      dsimp only at h
      omega

theorem countWorkdays_eq_card : ∀ (n : Nat) (s e : Int), (e + 1 - s).toNat = n →
    countWorkdays s e =
      (((Finset.Icc s e).filter (fun o => (o + 6) % 7 < 5)).card : Int) := by
  intro n
  induction n with
  | zero =>
    intro s e h0
    have hlt : e < s := by omega
    unfold countWorkdays
    rw [dif_pos hlt, Finset.Icc_eq_empty (by omega)]
    simp
  | succ k ih =>
    intro s e h0
    have hle : s ≤ e := by omega
    unfold countWorkdays
    rw [dif_neg (by omega), ih (s + 1) e (by omega)]
    have hins : Finset.Icc s e = insert s (Finset.Icc (s + 1) e) := by
      ext x
      simp only [Finset.mem_Icc, Finset.mem_insert]
      omega
    have hnm : s ∉ Finset.Icc (s + 1) e := by
      simp only [Finset.mem_Icc]
      omega
    rw [hins, Finset.filter_insert]
    by_cases hc : (s + 6) % 7 < 5
    · rw [if_pos hc, if_pos hc,
        Finset.card_insert_of_not_mem (fun hm => hnm (Finset.mem_of_mem_filter s hm))]
      push_cast
      ring
    · rw [if_neg hc, if_neg hc]
      ring

theorem countWorkdays_card (s e : Int) :
    countWorkdays s e =
      (((Finset.Icc s e).filter (fun o => (o + 6) % 7 < 5)).card : Int) :=
  countWorkdays_eq_card (e + 1 - s).toNat s e rfl

/-- C1: the spec promises `firstAnniversary = hireDate + 1 year` with the day
clamped to the last valid day of the month and no exception for any hire
date; the code instead calls `join_date.replace(year=join_date.year + 1)`
before its clamping line, which raises `ValueError` for a leap-day hire
(hire date 2020-02-29, any reference date after hire).  The clamp on line
108 is unreachable dead code for exactly the Feb-29 input it was meant to
fix.  `Except.error ()` is the model of the raise. -/
theorem claim_C1_code_raises :
    current_leave_segment (some ⟨2020, 2, 29⟩) ⟨2021, 3, 1⟩ = .error () := by
  rfl

/-- C5: `_completed_months` counts whole calendar months from `start` to
`limit` — the month difference, less one when `limit.day < start.day` in the
ending month; it returns 0 whenever `limit < start`, is never negative, and
`completedMonths(2023-01-31, 2023-02-28) = 0` because 28 < 31. -/
theorem claim_C5_completed_months (s l : Date) (hs : s.Valid) (hl : l.Valid) :
    (Date.lt l s → completed_months s l = 0) ∧
    0 ≤ completed_months s l ∧
    (¬ Date.lt l s → s.day ≤ l.day →
      completed_months s l = (l.year - s.year) * 12 + (l.month - s.month)) ∧
    (¬ Date.lt l s → l.day < s.day →
      completed_months s l = (l.year - s.year) * 12 + (l.month - s.month) - 1) ∧
    completed_months ⟨2023, 1, 31⟩ ⟨2023, 2, 28⟩ = 0 := by
  obtain ⟨hs1, hs2, _, _⟩ := hs
  obtain ⟨hl1, hl2, _, _⟩ := hl
  refine ⟨?_, ?_, ?_, ?_, by decide⟩
  · intro h
    unfold completed_months
    rw [if_pos h]
  · unfold completed_months
    split
    · omega
    · dsimp only
      exact le_max_right _ 0
  · intro h hd
    unfold completed_months
    rw [if_neg h]
    dsimp only
    rw [if_neg (by omega)]
    unfold Date.lt at h
    rw [max_eq_left (by omega)]
  · intro h hd
    unfold completed_months
    rw [if_neg h]
    dsimp only
    rw [if_pos hd]
    unfold Date.lt at h
    rw [max_eq_left (by omega)]

theorem claim_C5_witness :
    ¬ Date.lt (⟨2023, 2, 15⟩ : Date) ⟨2023, 1, 15⟩ ∧
    completed_months ⟨2023, 1, 15⟩ ⟨2023, 2, 15⟩ =
      ((2023 : Int) - 2023) * 12 + ((2 : Int) - 1) :=
  ⟨by decide,
   (claim_C5_completed_months ⟨2023, 1, 15⟩ ⟨2023, 2, 15⟩ (by decide) (by decide)).2.2.1
     (by decide) (by decide)⟩

/-- C9: once both dates are set, `LeaveRequest.save` stores `days = 0.5` for
the half-day kind (`반차`) and otherwise the number of non-weekend days in
the inclusive range `[start_date, end_date]` — here characterised as the
cardinality of the set of day ordinals in the range whose Python weekday
`(ordinal + 6) % 7` is below 5 (Monday..Friday). -/
theorem claim_C9_day_count (r : LeaveRequestRec) (sd ed : Date)
    (hs : r.start_date = some sd) (he : r.end_date = some ed) :
    (r.leave_type = "반차" → (leaveRequestSave r).days = some (1/2 : ℚ)) ∧
    (r.leave_type ≠ "반차" → (leaveRequestSave r).days =
      some (((((Finset.Icc sd.toOrdinal ed.toOrdinal).filter
        (fun o => (o + 6) % 7 < 5)).card : Int) : ℚ))) := by
  unfold leaveRequestSave
  rw [hs, he]
  dsimp only
  constructor
  · intro h
    rw [if_pos h]
  · intro h
    rw [if_neg h, countWorkdays_card]

theorem claim_C9_witness :
    (leaveRequestSave ⟨"연차", "pending", some ⟨2024, 6, 10⟩, some ⟨2024, 6, 16⟩, none⟩).days =
      some (((((Finset.Icc (Date.toOrdinal ⟨2024, 6, 10⟩) (Date.toOrdinal ⟨2024, 6, 16⟩)).filter
        (fun o => (o + 6) % 7 < 5)).card : Int) : ℚ)) :=
  (claim_C9_day_count ⟨"연차", "pending", some ⟨2024, 6, 10⟩, some ⟨2024, 6, 16⟩, none⟩
    ⟨2024, 6, 10⟩ ⟨2024, 6, 16⟩ rfl rfl).2 (by decide)

/-- C2: for the monthly segments (year 1 and the partial year 2), earned
leave is `completedMonths(windowStart, min(today, windowEnd))` — one day per
completed month — capped at the segment's natural length (at most 11 for
year 1, at most 12 for year 2); and for hire date 2023-01-15 the earned
total is 0 on 2023-02-14 and 1 on 2023-02-15. -/
theorem claim_C2_monthly_accrual (jd today : Date) (seg : Segment) (hv : today.Valid)
    (hres : current_leave_segment (some jd) today = .ok (some seg)) :
    ((∀ s e m, seg = .year1_monthly s e m →
        calculate_earned_leave (some jd) today (some seg) =
          .ok (completed_months s (dateMin today e)) ∧
        completed_months s (dateMin today e) ≤ 11) ∧
     (∀ s e m, seg = .year2_partial_monthly s e m →
        calculate_earned_leave (some jd) today (some seg) =
          .ok (completed_months s (dateMin today e)) ∧
        completed_months s (dateMin today e) ≤ 12)) ∧
    calculate_earned_leave (some ⟨2023, 1, 15⟩) ⟨2023, 2, 14⟩ none = .ok 0 ∧
    calculate_earned_leave (some ⟨2023, 1, 15⟩) ⟨2023, 2, 15⟩ none = .ok 1 := by
  obtain ⟨hlt, fa, hr, hfa, hcases⟩ := resolver_inv hres
  obtain ⟨_, hm1, hm2, hd1, hd2⟩ := replaceYear_some hr
  subst hfa
  refine ⟨⟨?_, ?_⟩, by rfl, by rfl⟩
  · intro s e m hseg
    rcases hcases with ⟨hle, hseg2⟩ | ⟨_, _, hseg2⟩ | ⟨_, _, _, hseg2⟩ | ⟨_, _, _, hseg2⟩
    · rw [hseg] at hseg2
      obtain ⟨rfl, rfl, rfl⟩ := Segment.year1_monthly.inj hseg2
      rw [hseg]
      refine ⟨earned_year1 hlt, ?_⟩
      rw [dateMin_eq_left hle]
      exact completed_months_year1_le hv hm1 hm2 hd1 hle
    · rw [hseg] at hseg2; simp at hseg2
    · rw [hseg] at hseg2; simp at hseg2
    · rw [hseg] at hseg2; simp at hseg2
  · intro s e m hseg
    rcases hcases with ⟨_, hseg2⟩ | ⟨hnle, hy, hseg2⟩ | ⟨_, _, _, hseg2⟩ | ⟨_, _, _, hseg2⟩
    · rw [hseg] at hseg2; simp at hseg2
    · rw [hseg] at hseg2
      obtain ⟨rfl, rfl, rfl⟩ := Segment.year2_partial_monthly.inj hseg2
      rw [hseg]
      refine ⟨earned_year2 hlt, ?_⟩
      have hmin : dateMin today ⟨(⟨jd.year + 1, jd.month, jd.day⟩ : Date).year, 12, 31⟩ =
          today := by
        apply dateMin_eq_left
        have h31 := hv.day_le_31
        obtain ⟨hv1, hv2, hv3, hv4⟩ := hv
        unfold Date.le
        dsimp only at hy ⊢
        omega
      rw [hmin]
      have h11 := completed_months_year2_le hv (by dsimp only; omega) hy
      omega
    · rw [hseg] at hseg2; simp at hseg2
    · rw [hseg] at hseg2; simp at hseg2

theorem claim_C2_witness :
    Date.Valid (⟨2023, 3, 20⟩ : Date) ∧
    calculate_earned_leave (some ⟨2023, 1, 15⟩) ⟨2023, 3, 20⟩
        (some (.year1_monthly ⟨2023, 1, 15⟩ ⟨2024, 1, 14⟩ 1)) =
      .ok (completed_months ⟨2023, 1, 15⟩ (dateMin ⟨2023, 3, 20⟩ ⟨2024, 1, 14⟩)) :=
  ⟨by decide,
   ((claim_C2_monthly_accrual ⟨2023, 1, 15⟩ ⟨2023, 3, 20⟩
      (.year1_monthly ⟨2023, 1, 15⟩ ⟨2024, 1, 14⟩ 1) (by decide) (by rfl)).1.1
      ⟨2023, 1, 15⟩ ⟨2024, 1, 14⟩ 1 rfl).1⟩

/-- C10: a reference date resolving to the year-two partial segment earns at
most 11 days: the window runs from the first anniversary to Dec 31 of the
anniversary year, Dec 31's day is never below the anniversary day, so
`completedMonths` over the whole window is `12 - anniversaryMonth ≤ 11`,
even though the window can nominally span 12 months. -/
theorem claim_C10_year2_cap (jd today : Date) (s e : Date) (m : Int) (hv : today.Valid)
    (hres : current_leave_segment (some jd) today =
      .ok (some (.year2_partial_monthly s e m))) :
    (∃ earned : Int,
      calculate_earned_leave (some jd) today (some (.year2_partial_monthly s e m)) =
        .ok earned ∧ earned ≤ 11) ∧
    e = ⟨s.year, 12, 31⟩ ∧
    completed_months s e = 12 - s.month ∧
    12 - s.month ≤ 11 := by
  obtain ⟨hlt, fa, hr, hfa, hcases⟩ := resolver_inv hres
  obtain ⟨_, hm1, hm2, hd1, hd2⟩ := replaceYear_some hr
  subst hfa
  rcases hcases with ⟨_, hseg2⟩ | ⟨hnle, hy, hseg2⟩ | ⟨_, _, _, hseg2⟩ | ⟨_, _, _, hseg2⟩
  · simp at hseg2
  · obtain ⟨rfl, rfl, rfl⟩ := (Segment.year2_partial_monthly.inj hseg2.symm)
    have hdm := (daysInMonth_bounds (jd.year + 1) jd.month).2
    have h31 := hv.day_le_31
    obtain ⟨hv1, hv2, hv3, hv4⟩ := hv
    refine ⟨?_, rfl, ?_, by dsimp only; omega⟩
    · refine ⟨_, earned_year2 hlt, ?_⟩
      have hmin : dateMin today
          ⟨(⟨jd.year + 1, jd.month, jd.day⟩ : Date).year, 12, 31⟩ = today := by
        apply dateMin_eq_left
        unfold Date.le
        dsimp only at hy ⊢
        omega
      rw [hmin]
      exact completed_months_year2_le ⟨hv1, hv2, hv3, hv4⟩ (by dsimp only; omega) hy
    · exact completed_months_year2_full (by dsimp only; omega) (by dsimp only; omega)
        (by dsimp only; omega) (by dsimp only; omega)
  · simp at hseg2
  · simp at hseg2

theorem claim_C10_witness :
    (∃ earned : Int,
      calculate_earned_leave (some ⟨2021, 1, 15⟩) ⟨2022, 7, 1⟩
          (some (.year2_partial_monthly ⟨2022, 1, 15⟩ ⟨2022, 12, 31⟩ 1)) =
        .ok earned ∧ earned ≤ 11) :=
  (claim_C10_year2_cap ⟨2021, 1, 15⟩ ⟨2022, 7, 1⟩ ⟨2022, 1, 15⟩ ⟨2022, 12, 31⟩ 1
    (by decide) (by rfl)).1

/-- C3: in the year-three prorated segment, earned leave is
`roundHalfUp(daysEmployed / 365 * 15)` with
`daysEmployed = (today - windowStart).days + 1` and
`roundHalfUp(x) = floor(x + 0.5)`, the divisor being a fixed 365 regardless
of leap years; for hire date 2020-01-15 and today 2022-07-01 this gives
`daysEmployed = 182` and earned 7. -/
theorem claim_C3_year3_proration (jd today : Date) (s e : Date) (rhu : Bool)
    (hres : current_leave_segment (some jd) today =
      .ok (some (.year3_prorated_calendar s e rhu))) :
    calculate_earned_leave (some jd) today (some (.year3_prorated_calendar s e rhu)) =
      .ok (Int.floor (((dateSub today s + 1 : Int) : ℚ) / 365 * 15 + 1/2)) ∧
    dateSub ⟨2022, 7, 1⟩ ⟨2022, 1, 1⟩ + 1 = 182 ∧
    calculate_earned_leave (some ⟨2020, 1, 15⟩) ⟨2022, 7, 1⟩ none = .ok 7 := by
  obtain ⟨hlt, fa, hr, hfa, hcases⟩ := resolver_inv hres
  refine ⟨?_, by rfl, by with_unfolding_all rfl⟩
  rcases hcases with ⟨_, hseg2⟩ | ⟨_, _, hseg2⟩ | ⟨_, _, _, hseg2⟩ | ⟨_, _, _, hseg2⟩
  · simp at hseg2
  · simp at hseg2
  · obtain ⟨rfl, rfl, rfl⟩ := Segment.year3_prorated_calendar.inj hseg2
    rw [earned_year3 hlt, if_pos rfl]
    rfl
  · simp at hseg2

theorem claim_C3_witness :
    calculate_earned_leave (some ⟨2020, 1, 15⟩) ⟨2022, 7, 1⟩
        (some (.year3_prorated_calendar ⟨2022, 1, 1⟩ ⟨2022, 12, 31⟩ true)) =
      .ok (Int.floor (((dateSub ⟨2022, 7, 1⟩ ⟨2022, 1, 1⟩ + 1 : Int) : ℚ) / 365 * 15 + 1/2)) :=
  (claim_C3_year3_proration ⟨2020, 1, 15⟩ ⟨2022, 7, 1⟩ ⟨2022, 1, 1⟩ ⟨2022, 12, 31⟩ true
    (by rfl)).1

/-- C4: once `today.year` is at least two past the first anniversary's year,
the resolver yields the flat annual segment over [Jan 1, Dec 31] of the
current calendar year with grant `15 + (serviceYear - 3)` where
`serviceYear = (today.year - hireDate.year) + 1`, and earned leave equals
the full grant regardless of the day within the year; hire date 2015-06-01
with today 2024-06-10 yields service year 10 and earned 22. -/
theorem claim_C4_annual_flat (jd today fa : Date) (hv : today.Valid)
    (hrep : replaceYear jd (jd.year + 1) = some fa)
    (hy : fa.year + 2 ≤ today.year) :
    current_leave_segment (some jd) today =
      .ok (some (.annual ⟨today.year, 1, 1⟩ ⟨today.year, 12, 31⟩
        (15 + ((today.year - jd.year) + 1 - 3)) false)) ∧
    calculate_earned_leave (some jd) today
        (some (.annual ⟨today.year, 1, 1⟩ ⟨today.year, 12, 31⟩
          (15 + ((today.year - jd.year) + 1 - 3)) false)) =
      .ok (15 + ((today.year - jd.year) + 1 - 3)) ∧
    current_leave_segment (some ⟨2015, 6, 1⟩) ⟨2024, 6, 10⟩ =
      .ok (some (.annual ⟨2024, 1, 1⟩ ⟨2024, 12, 31⟩ 22 false)) ∧
    calculate_earned_leave (some ⟨2015, 6, 1⟩) ⟨2024, 6, 10⟩ none = .ok 22 := by
  obtain ⟨hfa, hm1, hm2, hd1, hd2⟩ := replaceYear_some hrep
  subst hfa
  dsimp only at hy
  obtain ⟨hv1, hv2, hv3, hv4⟩ := hv
  have hlt : ¬ Date.lt today jd := by unfold Date.lt; omega
  refine ⟨?_, ?_, by rfl, by rfl⟩
  · unfold current_leave_segment
    dsimp only
    rw [if_neg hlt, hrep]
    dsimp only
    rw [last_day_of_month_eq hm1 hm2, min_eq_left hd2]
    rw [if_neg ?g1, if_neg ?g2, if_neg ?g3]
    case g1 =>
      unfold Date.pred
      dsimp only
      split
      · unfold Date.le; dsimp only; omega
      · split
        · unfold Date.le; dsimp only; omega
        · unfold Date.le; dsimp only; omega
    case g2 => dsimp only; omega
    case g3 => dsimp only; omega
  · rw [earned_annual hlt,
      if_neg (by unfold Date.lt; dsimp only; omega)]

theorem claim_C4_witness :
    current_leave_segment (some ⟨2015, 6, 1⟩) ⟨2024, 6, 10⟩ =
      .ok (some (.annual ⟨2024, 1, 1⟩ ⟨2024, 12, 31⟩
        (15 + (((2024 : Int) - 2015) + 1 - 3)) false)) :=
  (claim_C4_annual_flat ⟨2015, 6, 1⟩ ⟨2024, 6, 10⟩ ⟨2016, 6, 1⟩ (by decide)
    (by rfl) (by decide)).1

/-- C6: when the hire date is unset, or lies strictly after the reference
date, the resolver returns no segment and the summary facade returns
earned = 0, used = 0, remaining = 0, usage rate = 0 and no reset date. -/
theorem claim_C6_degenerate (join_dt : Option Date) (today : Date)
    (reqs : List LeaveRequestRec)
    (h : join_dt = none ∨ ∃ jd, join_dt = some jd ∧ Date.lt today jd) :
    current_leave_segment join_dt today = .ok none ∧
    leave_summary_for_user join_dt reqs today =
      .ok ⟨0, 0, 0, join_dt.isNone, join_dt, 0, none⟩ := by
  have hseg : current_leave_segment join_dt today = .ok none := by
    rcases h with rfl | ⟨jd, rfl, hlt⟩
    · rfl
    · unfold current_leave_segment
      dsimp only
      rw [if_pos hlt]
  refine ⟨hseg, ?_⟩
  unfold leave_summary_for_user
  rw [hseg]
  simp [calculate_used_leave]

theorem claim_C6_witness :
    leave_summary_for_user none [] ⟨2024, 1, 1⟩ =
      .ok ⟨0, 0, 0, true, none, 0, none⟩ :=
  (claim_C6_degenerate none ⟨2024, 1, 1⟩ [] (Or.inl rfl)).2

/-- C7: whatever summary the facade returns satisfies
`remaining = earned - used` with no clamping (so it may be negative),
`usageRate = used / earned * 100` when `earned > 0` and 0 otherwise
(in particular when earned = 0 but used > 0), and `resetDate` is the
resolved segment's window end. -/
theorem claim_C7_summary_shape (join_dt : Option Date) (reqs : List LeaveRequestRec)
    (today : Date) (s : LeaveSummary)
    (h : leave_summary_for_user join_dt reqs today = .ok s) :
    s.remaining = (s.earned : ℚ) - s.used ∧
    s.usage_rate = (if 0 < s.earned then s.used / (s.earned : ℚ) * 100 else 0) ∧
    (∃ seg : Option Segment, current_leave_segment join_dt today = .ok seg ∧
      s.reset_date = seg.map Segment.end_) := by
  unfold leave_summary_for_user at h
  cases hseg : current_leave_segment join_dt today with
  | error e => rw [hseg] at h; exact absurd h (by simp)
  | ok segment =>
    rw [hseg] at h
    dsimp only at h
    cases hE : (if segment.isSome then calculate_earned_leave join_dt today segment
                else Except.ok 0) with
    | error e => rw [hE] at h; exact absurd h (by simp)
    | ok earned =>
      rw [hE] at h
      dsimp only at h
      have hs := Except.ok.inj h
      subst hs
      exact ⟨rfl, rfl, segment, rfl, rfl⟩

theorem claim_C7_witness :
    (sampleSummary.remaining = (sampleSummary.earned : ℚ) - sampleSummary.used) ∧
    sampleSummary.usage_rate =
      (if 0 < sampleSummary.earned
       then sampleSummary.used / (sampleSummary.earned : ℚ) * 100 else 0) ∧
    (∃ seg : Option Segment,
      current_leave_segment (some ⟨2023, 1, 15⟩) ⟨2023, 2, 15⟩ = .ok seg ∧
      sampleSummary.reset_date = seg.map Segment.end_) :=
  claim_C7_summary_shape (some ⟨2023, 1, 15⟩) [] ⟨2023, 2, 15⟩ sampleSummary
    (by with_unfolding_all rfl)

/-- C8: whenever a hire date precedes the reference date and the resolver
returns a segment, that segment's window satisfies
`windowStart ≤ windowEnd` and `windowStart ≤ today ≤ windowEnd + 1 day`:
the resolver returns the segment containing "today". -/
theorem claim_C8_window_invariant (jd today : Date) (seg : Segment) (hv : today.Valid)
    (hj : Date.le jd today)
    (hres : current_leave_segment (some jd) today = .ok (some seg)) :
    Date.le seg.start seg.end_ ∧ Date.le seg.start today ∧
      Date.le today (Date.succ seg.end_) := by
  obtain ⟨hlt, fa, hr, hfa, hcases⟩ := resolver_inv hres
  obtain ⟨_, hm1, hm2, hd1, hd2⟩ := replaceYear_some hr
  subst hfa
  have hdm := (daysInMonth_bounds (jd.year + 1) jd.month).2
  have h31 := hv.day_le_31
  obtain ⟨hv1, hv2, hv3, hv4⟩ := hv
  rcases hcases with ⟨hle, rfl⟩ | ⟨hnle, hy, rfl⟩ | ⟨hnle, hy1, hy2, rfl⟩ |
    ⟨hnle, hy1, hy2, rfl⟩
  · simp only [Segment.start, Segment.end_]
    refine ⟨?_, hj, Date.le_trans hle (Date.le_succ_self _)⟩
    unfold Date.pred
    dsimp only
    split
    · unfold Date.le; dsimp only; omega
    · split
      · unfold Date.le; dsimp only; omega
      · unfold Date.le; dsimp only; omega
  · simp only [Segment.start, Segment.end_]
    dsimp only at hy
    have hend : Date.le today ⟨(⟨jd.year + 1, jd.month, jd.day⟩ : Date).year, 12, 31⟩ := by
      unfold Date.le; dsimp only; omega
    refine ⟨by unfold Date.le; dsimp only; omega,
      anniv_le_of_not_le_pred ⟨hv1, hv2, hv3, hv4⟩ hm1 hm2 hd1 hd2 hnle,
      Date.le_trans hend (Date.le_succ_self _)⟩
  · simp only [Segment.start, Segment.end_]
    have hend : Date.le today (⟨today.year, 12, 31⟩ : Date) := by
      unfold Date.le; dsimp only; omega
    exact ⟨by unfold Date.le; dsimp only; omega,
      by unfold Date.le; dsimp only; omega,
      Date.le_trans hend (Date.le_succ_self _)⟩
  · simp only [Segment.start, Segment.end_]
    have hend : Date.le today (⟨today.year, 12, 31⟩ : Date) := by
      unfold Date.le; dsimp only; omega
    exact ⟨by unfold Date.le; dsimp only; omega,
      by unfold Date.le; dsimp only; omega,
      Date.le_trans hend (Date.le_succ_self _)⟩

theorem claim_C8_witness :
    Date.le (⟨2023, 1, 15⟩ : Date) ⟨2023, 6, 1⟩ ∧
    Date.le (Segment.start (.year1_monthly ⟨2023, 1, 15⟩ ⟨2024, 1, 14⟩ 1))
        (Segment.end_ (.year1_monthly ⟨2023, 1, 15⟩ ⟨2024, 1, 14⟩ 1)) ∧
    Date.le (Segment.start (.year1_monthly ⟨2023, 1, 15⟩ ⟨2024, 1, 14⟩ 1)) ⟨2023, 6, 1⟩ ∧
    Date.le (⟨2023, 6, 1⟩ : Date)
        (Date.succ (Segment.end_ (.year1_monthly ⟨2023, 1, 15⟩ ⟨2024, 1, 14⟩ 1))) := by
  have h := claim_C8_window_invariant ⟨2023, 1, 15⟩ ⟨2023, 6, 1⟩
    (.year1_monthly ⟨2023, 1, 15⟩ ⟨2024, 1, 14⟩ 1) (by decide) (by decide) (by rfl)
  exact ⟨by decide, h.1, h.2.1, h.2.2⟩

end KUHCalendar
